import Mathlib

/-!
Verification of the procedural terrain generator in
`legged_gym/utils/terrain.py` (ViNL).

The Python module works on numpy integer heightfields and Python floats.
We embed it shallowly:

* heightfields become total functions `ℤ → ℤ → ℤ`; a numpy slice
  assignment is a pointwise overwrite on the sliced rectangle (faithful
  whenever the slice bounds are non-negative and within the array, which
  every theorem below either fixes concretely or assumes);
* Python floats become exact rationals `ℚ`.  At every concrete input
  appearing in a claim the double-precision computation and the exact
  rational computation produce identical integer results after `int(...)`
  truncation, so the rational model is faithful there;
* `int(...)` on a float is truncation toward zero (`pyInt`), `//` on
  Python integers is floor division (`pyFloorDiv`);
* the external `isaacgym.terrain_utils` generators (sloped, stairs,
  stepping stones, ...) mutate only the heightfield array of a
  `SubTerrain`; they are abstracted as function parameters.  The two
  composite primitives defined in this file (`gap_terrain`,
  `pit_terrain`) are translated exactly.
-/

namespace ViNL

/-! ## Definitions -/

/-- Python `int(q)` for an exact rational `q`: truncation toward zero.
`Rat` is stored in lowest terms with positive denominator, and `Int.tdiv`
is T-division, so this is exactly truncation toward zero. -/
def pyInt (q : ℚ) : ℤ := Int.tdiv q.num q.den

/-- Python `//` on integers: floor division. -/
def pyFloorDiv (a b : ℤ) : ℤ := Int.fdiv a b

/-- A 2-D heightfield, as a total function on integer pixel coordinates.
The first argument is the row (`x`), the second the column (`y`). -/
abbrev HeightField := ℤ → ℤ → ℤ

/-- numpy constant slice assignment `hf[x1:x2, y1:y2] = v`, modelled for
non-negative in-bounds slice endpoints. -/
def fillRegion (f : HeightField) (x1 x2 y1 y2 : ℤ) (v : ℤ) : HeightField :=
  fun x y => if x1 ≤ x ∧ x < x2 ∧ y1 ≤ y ∧ y < y2 then v else f x y

/-- `isaacgym.terrain_utils.SubTerrain` as used by this module: a patch
descriptor with pixel dimensions, scales, and an owned heightfield of
shape `(length, width)` (row index bounded by `length`, column index by
`width`). -/
structure SubTerrain where
  width : ℕ
  length : ℕ
  vertical_scale : ℚ
  horizontal_scale : ℚ
  height_field_raw : HeightField

/-- A freshly constructed `SubTerrain`: all-zero heightfield. -/
def zeroSubTerrain (length width : ℕ) (vs hs : ℚ) : SubTerrain :=
  { width := width
    length := length
    vertical_scale := vs
    horizontal_scale := hs
    height_field_raw := fun _ _ => 0 }

/-- `gap_terrain(terrain, gap_size, platform_size=1.0)` from
`terrain.py`: converts both sizes to pixels, writes `-1000` to the outer
centered square of half-width `x2 = (length - platform_px)//2 + gap_px`,
then overwrites the inner centered square of half-width
`x1 = (length - platform_px)//2` back to `0`. -/
def gap_terrain (terrain : SubTerrain) (gap_size : ℚ) (platform_size : ℚ := 1) :
    SubTerrain :=
  let gap_px : ℤ := pyInt (gap_size / terrain.horizontal_scale)
  let platform_px : ℤ := pyInt (platform_size / terrain.horizontal_scale)
  let center_x : ℤ := ((terrain.length / 2 : ℕ) : ℤ)
  let center_y : ℤ := ((terrain.width / 2 : ℕ) : ℤ)
  let x1 : ℤ := pyFloorDiv ((terrain.length : ℤ) - platform_px) 2
  let x2 : ℤ := x1 + gap_px
  let y1 : ℤ := pyFloorDiv ((terrain.width : ℤ) - platform_px) 2
  let y2 : ℤ := y1 + gap_px
  { terrain with
    height_field_raw :=
      fillRegion
        (fillRegion terrain.height_field_raw (center_x - x2) (center_x + x2)
          (center_y - y2) (center_y + y2) (-1000))
        (center_x - x1) (center_x + x1) (center_y - y1) (center_y + y1) 0 }

/-- `pit_terrain(terrain, depth, platform_size=1.0)` from `terrain.py`:
converts `depth` to raw units and `platform_size` to half-pixels, then
fills the centered square `[len//2 - p, len//2 + p) × [wid//2 - p,
wid//2 + p)` with `-depth_px`. -/
def pit_terrain (terrain : SubTerrain) (depth : ℚ) (platform_size : ℚ := 1) :
    SubTerrain :=
  let depth_px : ℤ := pyInt (depth / terrain.vertical_scale)
  let platform_px : ℤ := pyInt (platform_size / terrain.horizontal_scale / 2)
  let x1 : ℤ := ((terrain.length / 2 : ℕ) : ℤ) - platform_px
  let x2 : ℤ := ((terrain.length / 2 : ℕ) : ℤ) + platform_px
  let y1 : ℤ := ((terrain.width / 2 : ℕ) : ℤ) - platform_px
  let y2 : ℤ := ((terrain.width / 2 : ℕ) : ℤ) + platform_px
  { terrain with
    height_field_raw :=
      fillRegion terrain.height_field_raw x1 x2 y1 y2 (-depth_px) }

/-- What `gap_terrain(gap_size=1.0, platform_size=3.0)` actually leaves
on an all-zero `100 × 100` patch with `horizontal_scale = 0.1`:
the restored inner square has half-width `x1 = (100 - 30) // 2 = 35`
(so it spans `[15, 85)` per axis, side 70 — not side 30), and the
`-1000` moat extends to half-width `x2 = x1 + 10 = 45`, spanning
`[5, 95)` minus the inner square. -/
def gapExpected100 : HeightField := fun x y =>
  if (5 ≤ x ∧ x < 95 ∧ 5 ≤ y ∧ y < 95) ∧
      ¬(15 ≤ x ∧ x < 85 ∧ 15 ≤ y ∧ y < 85) then -1000 else 0

/-- What `pit_terrain(depth=1.0, platform_size=4.0)` leaves on an
all-zero `L × W` patch with `vertical_scale = 0.005`,
`horizontal_scale = 0.1`: the centered square of half-width
`int(4.0/0.1/2) = 20` is `-int(1.0/0.005) = -200`, everything else is
unchanged. -/
def pitExpected (L W : ℕ) : HeightField := fun x y =>
  if ((L / 2 : ℕ) : ℤ) - 20 ≤ x ∧ x < ((L / 2 : ℕ) : ℤ) + 20 ∧
      ((W / 2 : ℕ) : ℤ) - 20 ≤ y ∧ y < ((W / 2 : ℕ) : ℤ) + 20 then -200 else 0

/-- A triangle mesh as held by the `Terrain` object: a vertex buffer
(float triples) and a triangle index buffer. -/
structure Mesh where
  vertices : List (ℚ × ℚ × ℚ)
  triangles : List (ℕ × ℕ × ℕ)

/-- The 8 corners of the rectangular prism of footprint `s1 × s2` and
height `h` based at `z = 0`, in the order `add_block` lists them. -/
def blockVertices (x0 y0 s1 s2 h : ℚ) : List (ℚ × ℚ × ℚ) :=
  [(x0, y0, 0), (x0 + s1, y0, 0), (x0, y0 + s2, 0), (x0 + s1, y0 + s2, 0),
   (x0, y0, h), (x0 + s1, y0, h), (x0, y0 + s2, h), (x0 + s1, y0 + s2, h)]

/-- `list(itertools.permutations(range(8), 3))`: all ordered triples of
pairwise distinct indices below 8, in lexicographic order. -/
def trianglePerms : List (ℕ × ℕ × ℕ) :=
  (List.range 8).flatMap fun a =>
    (List.range 8).flatMap fun b =>
      (List.range 8).filterMap fun c =>
        if a ≠ b ∧ a ≠ c ∧ b ≠ c then some (a, b, c) else none

/-- `Terrain.add_block(x0, y0, s1, s2, h)` from `terrain.py`: appends
the prism's 8 corners to the vertex buffer and, for every ordered
3-permutation of the 8 local indices, a triangle offset by the vertex
count of the mesh before the append. -/
def add_block (m : Mesh) (x0 y0 s1 s2 h : ℚ) : Mesh :=
  { triangles := m.triangles ++ trianglePerms.map fun t =>
      (t.1 + m.vertices.length, t.2.1 + m.vertices.length,
        t.2.2 + m.vertices.length)
    vertices := m.vertices ++ blockVertices x0 y0 s1 s2 h }

/-- `slope = difficulty * 0.4` (line 163 of `terrain.py`). -/
def slope (difficulty : ℚ) : ℚ := difficulty * (2/5)

/-- `step_height = 0.05 + 0.18 * difficulty` (line 164). -/
def step_height (difficulty : ℚ) : ℚ := 1/20 + (9/50) * difficulty

/-- `discrete_obstacles_height = 0.05 + difficulty * 0.2` (line 165). -/
def discrete_obstacles_height (difficulty : ℚ) : ℚ := 1/20 + difficulty * (1/5)

/-- `stepping_stones_size = 1.5 * (1.05 - difficulty)` (line 166). -/
def stepping_stones_size (difficulty : ℚ) : ℚ := (3/2) * (21/20 - difficulty)

/-- `stone_distance = 0.05 if difficulty == 0 else 0.1` (line 167). -/
def stone_distance (difficulty : ℚ) : ℚ := if difficulty = 0 then 1/20 else 1/10

/-- `gap_size = 1.0 * difficulty` (line 168). -/
def gap_size (difficulty : ℚ) : ℚ := 1 * difficulty

/-- `pit_depth = 1.0 * difficulty` (line 169). -/
def pit_depth (difficulty : ℚ) : ℚ := 1 * difficulty

/-- The nine code paths of `Terrain.make_terrain` (lines 170-232),
including the sign decisions the dispatch itself makes: `sloped b` with
`b = true` when the slope sign is flipped, `stairs b` with `b = true`
when the step height is negated. -/
inductive TerrainKind where
  | sloped (flipped : Bool)
  | slopedRough
  | stairs (negated : Bool)
  | discreteObstacles
  | discreteCells
  | steppingStones
  | gap
  | pit
  deriving DecidableEq

/-- The branch selected by the `if/elif` chain of `make_terrain`: note
the chain compares `choice` against `proportions[0], [1], [3], [4],
[5], [6], [7]` — index 2 appears only inside the stairs branch, to
choose the sign of the step height. -/
def make_terrain_branch (p : Fin 8 → ℚ) (choice : ℚ) : TerrainKind :=
  if choice < p 0 then .sloped (decide (choice < p 0 / 2))
  else if choice < p 1 then .slopedRough
  else if choice < p 3 then .stairs (decide (choice < p 2))
  else if choice < p 4 then .discreteObstacles
  else if choice < p 5 then .discreteCells
  else if choice < p 6 then .steppingStones
  else if choice < p 7 then .gap
  else .pit

/-- The dispatch as the claim describes it: compare `choice` against
the cumulative thresholds in index order — index 2 included — and let
the first threshold that `choice` falls strictly below win, with the
stairs step height negated exactly when `choice < proportions[2]`. -/
def first_below_branch (p : Fin 8 → ℚ) (choice : ℚ) : TerrainKind :=
  if choice < p 0 then .sloped (decide (choice < p 0 / 2))
  else if choice < p 1 then .slopedRough
  else if choice < p 2 then .stairs true
  else if choice < p 3 then .stairs (decide (choice < p 2))
  else if choice < p 4 then .discreteObstacles
  else if choice < p 5 then .discreteCells
  else if choice < p 6 then .steppingStones
  else if choice < p 7 then .gap
  else .pit

/-- `self.proportions = [np.sum(cfg.terrain_proportions[:i+1]) for i in
range(len(cfg.terrain_proportions))]` (lines 63-66): the table of
prefix sums of the configured proportion vector. -/
def proportionsTable (v : List ℚ) : List ℚ :=
  (List.range v.length).map fun i => (v.take (i + 1)).sum

/-- The construction-time configuration fields of
`LeggedRobotCfg.terrain` used by the grid assembly (the image-override
path is excluded — claims below concern the non-image modes). -/
structure TerrainCfg where
  terrain_length : ℚ
  terrain_width : ℚ
  horizontal_scale : ℚ
  vertical_scale : ℚ
  border_size : ℚ
  num_rows : ℕ
  num_cols : ℕ

/-- `self.width_per_env_pixels = int(self.env_width / cfg.horizontal_scale)`
(line 71).  Configured dimensions are positive, so the `int()` result is
a non-negative machine integer; we keep it as `ℕ`. -/
def width_per_env_pixels (cfg : TerrainCfg) : ℕ :=
  (pyInt (cfg.terrain_width / cfg.horizontal_scale)).toNat

/-- `self.length_per_env_pixels = int(self.env_length / cfg.horizontal_scale)`
(line 72). -/
def length_per_env_pixels (cfg : TerrainCfg) : ℕ :=
  (pyInt (cfg.terrain_length / cfg.horizontal_scale)).toNat

/-- `self.border = int(cfg.border_size / self.cfg.horizontal_scale)`
(line 74). -/
def borderPixels (cfg : TerrainCfg) : ℕ :=
  (pyInt (cfg.border_size / cfg.horizontal_scale)).toNat

/-- The mutable state of the `Terrain` object that
`add_terrain_to_map` touches: the composite heightfield and the per-cell
spawn origins. -/
structure TerrainState where
  height_field_raw : HeightField
  env_origins : ℕ → ℕ → ℚ × ℚ × ℚ

/-- The state right after `np.zeros` initialization (lines 69 and 79). -/
def initTerrainState : TerrainState :=
  { height_field_raw := fun _ _ => 0
    env_origins := fun _ _ => (0, 0, 0) }

/-- The values of `f` on the rectangle `[x1, x2) × [y1, y2)`, row-major
(the numpy slice `f[x1:x2, y1:y2]`, for in-bounds non-negative slice
endpoints). -/
def regionVals (f : HeightField) (x1 x2 y1 y2 : ℤ) : List ℤ :=
  (List.range (x2 - x1).toNat).flatMap fun i =>
    (List.range (y2 - y1).toNat).map fun j => f (x1 + i) (y1 + j)

/-- `np.max` over the listed values.  numpy raises on an empty slice;
every use below is on a non-empty window, where this model is exact. -/
def npMax : List ℤ → ℤ
  | [] => 0
  | a :: r => r.foldl max a

/-- `Terrain.add_terrain_to_map(terrain, row, col)` (lines 236-255):
copies the sub-terrain's heightfield into the slot
`[border + row·length_px, border + (row+1)·length_px) ×
[border + col·width_px, border + (col+1)·width_px)` of the composite
heightfield (exact overwrite), and assigns the cell's spawn origin:
`x, y` at the cell center in world units, `z` as the maximum raw height
over the ±1-world-meter window around the local sub-terrain center,
scaled by the sub-terrain's vertical scale. -/
def add_terrain_to_map (cfg : TerrainCfg) (s : TerrainState)
    (terrain : SubTerrain) (row col : ℕ) : TerrainState :=
  let start_x : ℤ := (borderPixels cfg + row * length_per_env_pixels cfg : ℕ)
  let end_x : ℤ := (borderPixels cfg + (row + 1) * length_per_env_pixels cfg : ℕ)
  let start_y : ℤ := (borderPixels cfg + col * width_per_env_pixels cfg : ℕ)
  let end_y : ℤ := (borderPixels cfg + (col + 1) * width_per_env_pixels cfg : ℕ)
  let x1 : ℤ := pyInt ((cfg.terrain_length / 2 - 1) / terrain.horizontal_scale)
  let x2 : ℤ := pyInt ((cfg.terrain_length / 2 + 1) / terrain.horizontal_scale)
  let y1 : ℤ := pyInt ((cfg.terrain_width / 2 - 1) / terrain.horizontal_scale)
  let y2 : ℤ := pyInt ((cfg.terrain_width / 2 + 1) / terrain.horizontal_scale)
  { height_field_raw := fun x y =>
      if start_x ≤ x ∧ x < end_x ∧ start_y ≤ y ∧ y < end_y then
        terrain.height_field_raw (x - start_x) (y - start_y)
      else s.height_field_raw x y
    env_origins := fun i j =>
      if i = row ∧ j = col then
        (((row : ℚ) + 1/2) * cfg.terrain_length,
          ((col : ℚ) + 1/2) * cfg.terrain_width,
          (npMax (regionVals terrain.height_field_raw x1 x2 y1 y2) : ℚ) *
            terrain.vertical_scale)
      else s.env_origins i j }

/-- A whole population pass (`randomized_terrain`, `curiculum` with the
default row/column counts, or `selected_terrain`): a sequence of
`add_terrain_to_map` calls folded over the state, each with its
sub-terrain and grid cell. -/
def placeAll (cfg : TerrainCfg) (s : TerrainState)
    (ps : List (SubTerrain × ℕ × ℕ)) : TerrainState :=
  ps.foldl (fun t q => add_terrain_to_map cfg t q.1 q.2.1 q.2.2) s

/-- The external `isaacgym.terrain_utils` generators called by
`make_terrain`, abstracted: each mutates only the heightfield array of
the sub-terrain it is handed (numpy in-place mutation cannot change the
array's shape), so each is modelled as producing the new heightfield.
Argument order follows the call sites in `make_terrain`. -/
structure ExternalGens where
  pyramid_sloped_terrain : SubTerrain → ℚ → ℚ → HeightField
  random_uniform_terrain : SubTerrain → ℚ → ℚ → ℚ → ℚ → HeightField
  pyramid_stairs_terrain : SubTerrain → ℚ → ℚ → ℚ → HeightField
  discrete_obstacles_terrain : SubTerrain → ℚ → ℚ → ℚ → ℕ → ℚ → HeightField
  discrete_obstacles_terrain_cells :
    SubTerrain → ℚ → ℚ → ℚ → ℚ → ℕ → ℚ → HeightField
  stepping_stones_terrain : SubTerrain → ℚ → ℚ → ℚ → ℚ → HeightField

/-- Placeholder generator bundle: leaves every heightfield unchanged.
Used to instantiate shape statements, which do not depend on the
generators. -/
def trivialGens : ExternalGens :=
  { pyramid_sloped_terrain := fun t _ _ => t.height_field_raw
    random_uniform_terrain := fun t _ _ _ _ => t.height_field_raw
    pyramid_stairs_terrain := fun t _ _ _ => t.height_field_raw
    discrete_obstacles_terrain := fun t _ _ _ _ _ => t.height_field_raw
    discrete_obstacles_terrain_cells := fun t _ _ _ _ _ _ => t.height_field_raw
    stepping_stones_terrain := fun t _ _ _ _ => t.height_field_raw }

/-- `Terrain.make_terrain(choice, difficulty)` (lines 155-234): builds a
`SubTerrain` whose width *and* length are both
`self.width_per_env_pixels`, then dispatches on `choice` against the
proportion thresholds, mutating the heightfield via the selected
generator.  The `gap` and `pit` branches use the composite primitives
translated above. -/
def make_terrain (g : ExternalGens) (cfg : TerrainCfg) (p : Fin 8 → ℚ)
    (choice difficulty : ℚ) : SubTerrain :=
  let terrain := zeroSubTerrain (width_per_env_pixels cfg)
    (width_per_env_pixels cfg) cfg.vertical_scale cfg.horizontal_scale
  if choice < p 0 then
    { terrain with height_field_raw :=
        (g.pyramid_sloped_terrain terrain
          (if choice < p 0 / 2 then -(slope difficulty) else slope difficulty)
          3) }
  else if choice < p 1 then
    { terrain with height_field_raw :=
        (g.random_uniform_terrain
          { terrain with height_field_raw :=
              (g.pyramid_sloped_terrain terrain (slope difficulty) 3) }
          (-(1/20)) (1/20) (1/200) (1/5)) }
  else if choice < p 3 then
    { terrain with height_field_raw :=
        (g.pyramid_stairs_terrain terrain (31/100)
          (if choice < p 2 then -(step_height difficulty)
            else step_height difficulty) 3) }
  else if choice < p 4 then
    { terrain with height_field_raw :=
        (g.discrete_obstacles_terrain terrain
          (discrete_obstacles_height difficulty) 1 2 20 3) }
  else if choice < p 5 then
    { terrain with height_field_raw :=
        (g.discrete_obstacles_terrain_cells terrain (7/50) (3/20) 2 5
          (pyInt (200 * difficulty)).toNat 3) }
  else if choice < p 6 then
    { terrain with height_field_raw :=
        (g.stepping_stones_terrain terrain (stepping_stones_size difficulty)
          (stone_distance difficulty) 0 4) }
  else if choice < p 7 then gap_terrain terrain (gap_size difficulty) 3
  else pit_terrain terrain (pit_depth difficulty) 4

/-- The numpy slice assignment
`height_field_raw[start_x:end_x, start_y:end_y] = terrain.height_field_raw`
in `add_terrain_to_map` is shape-correct exactly when the sub-terrain's
`(length, width)` matches the slot's
`(length_per_env_pixels, width_per_env_pixels)`. -/
def copyShapeCorrect (cfg : TerrainCfg) (t : SubTerrain) : Prop :=
  t.length = length_per_env_pixels cfg ∧ t.width = width_per_env_pixels cfg

/-- A small concrete configuration used to instantiate the assembler
theorems: 2m × 2m cells, 1m border, one row and one column, scales 1. -/
def exampleCfg : TerrainCfg :=
  { terrain_length := 2
    terrain_width := 2
    horizontal_scale := 1
    vertical_scale := 1
    border_size := 1
    num_rows := 1
    num_cols := 1 }

/-- A 4m × 4m configuration used to instantiate the spawn-origin
theorem. -/
def peakCfg : TerrainCfg :=
  { terrain_length := 4
    terrain_width := 4
    horizontal_scale := 1
    vertical_scale := 1
    border_size := 0
    num_rows := 1
    num_cols := 1 }

/-- A hand-constructed 4×4 sub-terrain with a single peak of raw height
7 at pixel `(2,2)` — inside the ±1m window around the local center —
and vertical scale `1/2`. -/
def peakTerrain : SubTerrain :=
  { width := 4
    length := 4
    vertical_scale := 1/2
    horizontal_scale := 1
    height_field_raw := fun i j => if i = 2 ∧ j = 2 then 7 else 0 }

/-- A configuration with `terrain_length = 1.05 ≠ 1.0 = terrain_width`
whose two pixel counts nevertheless agree
(`int(1.05/0.1) = int(1.0/0.1) = 10`). -/
def skewedCfg : TerrainCfg :=
  { terrain_length := 21/20
    terrain_width := 1
    horizontal_scale := 1/10
    vertical_scale := 1/200
    border_size := 1
    num_rows := 1
    num_cols := 1 }

/-! ## Theorems -/

/-- `int()` of an integer-valued rational is that integer. -/
theorem pyInt_intCast (n : ℤ) : pyInt ((n : ℚ)) = n := by
  simp [pyInt, Rat.num_intCast, Rat.den_intCast]

/-- Evaluation helper: rewrite `pyInt q` once `q` is known to be an
integer. -/
theorem pyInt_eq_of_eq_intCast {q : ℚ} {n : ℤ} (h : q = (n : ℚ)) :
    pyInt q = n := by
  rw [h, pyInt_intCast]

/-- Pointwise evaluation of `gap_terrain` on the 100×100 all-zero patch
of claim C1. -/
theorem gapExample100_eval :
    ∀ x y : ℤ,
      (gap_terrain (zeroSubTerrain 100 100 (5/1000) (1/10)) 1 3).height_field_raw
        x y = gapExpected100 x y := by
  have h10 : pyInt ((1 : ℚ) / (1/10)) = 10 :=
    pyInt_eq_of_eq_intCast (by norm_num)
  have h30 : pyInt ((3 : ℚ) / (1/10)) = 30 :=
    pyInt_eq_of_eq_intCast (by norm_num)
  intro x y
  simp only [gap_terrain, zeroSubTerrain, fillRegion, gapExpected100,
    pyFloorDiv]
  rw [h10, h30, Int.fdiv_eq_ediv _ (by norm_num)]
  split_ifs <;> omega

/-- C1, counterexample: the claim says every pixel strictly outside the
central side-30 (= `platform_size` pixels) square but inside the
half-width-40 (= `gap_size + platform_size`) square is `-1000`.  Pixel
`(20, 50)` is such a pixel, yet the code leaves it at `0`, because the
restored inner square has half-width `(100 - 30)//2 = 35`, not 15. -/
theorem gap_terrain_claimed_ring_false :
    ¬ (∀ x y : ℤ, (10 ≤ x ∧ x < 90 ∧ 10 ≤ y ∧ y < 90) →
        ¬(35 ≤ x ∧ x < 65 ∧ 35 ≤ y ∧ y < 65) →
        (gap_terrain (zeroSubTerrain 100 100 (5/1000) (1/10)) 1 3).height_field_raw
          x y = -1000) := by
  intro h
  have h10 : pyInt ((1 : ℚ) / (1/10)) = 10 :=
    pyInt_eq_of_eq_intCast (by norm_num)
  have h30 : pyInt ((3 : ℚ) / (1/10)) = 30 :=
    pyInt_eq_of_eq_intCast (by norm_num)
  have h2050 := h 20 50 (by norm_num) (by norm_num)
  simp only [gap_terrain, zeroSubTerrain, fillRegion] at h2050
  rw [h10, h30] at h2050
  revert h2050
  decide

/-- C1 (amended): for `gap_size=1.0, platform_size=3.0,
horizontal_scale=0.1` on an all-zero 100×100 patch, `gap_terrain`
first writes `-1000` to the centered square of half-width
`(100 - 30)//2 + 10 = 45` and then restores the centered square of
half-width `(100 - 30)//2 = 35` to `0`; so the flat island spans
`[15, 85)` per axis (side 70, not side `platform_size` = 30 pixels) and
the `-1000` moat is exactly the ring between half-widths 35 and 45. -/
theorem gap_terrain_island_and_moat :
    ∀ x y : ℤ,
      (gap_terrain (zeroSubTerrain 100 100 (5/1000) (1/10)) 1 3).height_field_raw
        x y = gapExpected100 x y :=
  gapExample100_eval

/-- C5: `pit_terrain(depth=1.0, platform_size=4.0)` on an all-zero
`L × W` patch (`vertical_scale = 0.005`, `horizontal_scale = 0.1`,
both dimensions at least 40 so the slice stays in bounds): the centered
square of side `2 * int(4.0/0.1/2) = 40` equals `-int(1.0/0.005) = -200`
and every other pixel is unchanged (0); no ring is carved. -/
theorem pit_terrain_sunken_platform (L W : ℕ) (hL : 40 ≤ L) (hW : 40 ≤ W) :
    ∀ x y : ℤ,
      (pit_terrain (zeroSubTerrain L W (5/1000) (1/10)) 1 4).height_field_raw
        x y = pitExpected L W x y := by
  have h200 : pyInt ((1 : ℚ) / (5/1000)) = 200 :=
    pyInt_eq_of_eq_intCast (by norm_num)
  have h20 : pyInt ((4 : ℚ) / (1/10) / 2) = 20 :=
    pyInt_eq_of_eq_intCast (by norm_num)
  intro x y
  simp only [pit_terrain, zeroSubTerrain, fillRegion, pitExpected]
  rw [h200, h20]

/-- Witness for C5 at `L = W = 100`: the center pixel is `-200` and the
corner pixel is untouched. -/
theorem pit_terrain_sunken_platform_witness :
    (40 ≤ 100) ∧
      (pit_terrain (zeroSubTerrain 100 100 (5/1000) (1/10)) 1 4).height_field_raw
          50 50 = -200 ∧
      (pit_terrain (zeroSubTerrain 100 100 (5/1000) (1/10)) 1 4).height_field_raw
          0 0 = 0 := by
  refine ⟨by norm_num, ?_, ?_⟩
  · rw [pit_terrain_sunken_platform 100 100 (by norm_num) (by norm_num) 50 50]
    decide
  · rw [pit_terrain_sunken_platform 100 100 (by norm_num) (by norm_num) 0 0]
    decide

/-- Membership in `trianglePerms`: exactly the ordered triples of
pairwise distinct indices below 8. -/
theorem trianglePerms_mem (a b c : ℕ) :
    (a, b, c) ∈ trianglePerms ↔
      a < 8 ∧ b < 8 ∧ c < 8 ∧ a ≠ b ∧ a ≠ c ∧ b ≠ c := by
  simp only [trianglePerms, List.mem_flatMap, List.mem_filterMap,
    List.mem_range]
  constructor
  · rintro ⟨a', ha', b', hb', c', hc', hsome⟩
    by_cases hd : a' ≠ b' ∧ a' ≠ c' ∧ b' ≠ c'
    · rw [if_pos hd] at hsome
      obtain ⟨rfl, rfl, rfl⟩ : a' = a ∧ b' = b ∧ c' = c := by
        simpa [Prod.ext_iff] using hsome
      exact ⟨ha', hb', hc', hd.1, hd.2.1, hd.2.2⟩
    · rw [if_neg hd] at hsome
      cases hsome
  · rintro ⟨ha, hb, hc, hab, hac, hbc⟩
    exact ⟨a, ha, b, hb, c, hc, by rw [if_pos ⟨hab, hac, hbc⟩]⟩

set_option maxRecDepth 10000 in
/-- C2, counterexample: the claim says each accepted block appends
exactly 56 triangle index triples.  On the empty mesh a single block
appends `8·7·6 = 336` triples (ordered 3-permutations of 8 indices),
not 56 (56 would be the number of unordered 3-subsets). -/
theorem add_block_triangle_count_not_56 :
    (add_block ⟨[], []⟩ 0 0 1 1 1).triangles.length = 336 ∧
      ¬ ((add_block ⟨[], []⟩ 0 0 1 1 1).triangles.length = 56) := by
  constructor
  · decide
  · decide

set_option maxRecDepth 10000 in
/-- C2 (amended): each `add_block` call appends exactly 8 new vertices
(the corners of the `s1 × s2 × h` prism based at `z = 0`) and exactly
336 new triangle index triples — all ordered 3-element permutations of
the 8 new local indices (not 56, which would be the unordered count) —
each offset by the vertex count before the append; both buffers grow by
concatenation, preserving their existing contents. -/
theorem add_block_appends_prism :
    ∀ (m : Mesh) (x0 y0 s1 s2 h : ℚ),
      (add_block m x0 y0 s1 s2 h).vertices =
          m.vertices ++ blockVertices x0 y0 s1 s2 h ∧
        (add_block m x0 y0 s1 s2 h).vertices.length = m.vertices.length + 8 ∧
        (add_block m x0 y0 s1 s2 h).triangles =
          m.triangles ++ trianglePerms.map (fun t =>
            (t.1 + m.vertices.length, t.2.1 + m.vertices.length,
              t.2.2 + m.vertices.length)) ∧
        (add_block m x0 y0 s1 s2 h).triangles.length =
          m.triangles.length + 336 ∧
        (∀ a b c : ℕ, (a, b, c) ∈ trianglePerms ↔
          a < 8 ∧ b < 8 ∧ c < 8 ∧ a ≠ b ∧ a ≠ c ∧ b ≠ c) := by
  intro m x0 y0 s1 s2 h
  refine ⟨rfl, ?_, rfl, ?_, trianglePerms_mem⟩
  · simp [add_block, blockVertices]
  · have : trianglePerms.length = 336 := by decide
    simp [add_block, this]

/-- C3, counterexample: `stepping_stones_size` is *decreasing* in
difficulty: at difficulty 0 it is `1.575` and at difficulty 1 it is
`0.075`, so not every difficulty-derived parameter is monotonically
non-decreasing. -/
theorem stepping_stones_size_not_monotone :
    (0 : ℚ) ≤ 1 ∧ ¬ (stepping_stones_size 0 ≤ stepping_stones_size 1) := by
  norm_num [stepping_stones_size]

/-- C3 (amended): over difficulties `0 ≤ d1 ≤ d2 ≤ 1`, the parameters
`slope`, `step_height`, `discrete_obstacles_height`, `stone_distance`,
`gap_size` and `pit_depth` are monotonically non-decreasing, while
`stepping_stones_size` is monotonically non-increasing. -/
theorem terrain_params_monotone (d1 d2 : ℚ)
    (h0 : 0 ≤ d1) (h12 : d1 ≤ d2) (h21 : d2 ≤ 1) :
    slope d1 ≤ slope d2 ∧
      step_height d1 ≤ step_height d2 ∧
      discrete_obstacles_height d1 ≤ discrete_obstacles_height d2 ∧
      stone_distance d1 ≤ stone_distance d2 ∧
      gap_size d1 ≤ gap_size d2 ∧
      pit_depth d1 ≤ pit_depth d2 ∧
      stepping_stones_size d2 ≤ stepping_stones_size d1 := by
  refine ⟨?_, ?_, ?_, ?_, ?_, ?_, ?_⟩ <;>
    simp only [slope, step_height, discrete_obstacles_height, stone_distance,
      gap_size, pit_depth, stepping_stones_size]
  · linarith
  · linarith
  · linarith
  · by_cases h1 : d1 = 0
    · by_cases h2 : d2 = 0
      · norm_num [h1, h2]
      · norm_num [h1, h2]
    · have h2 : ¬ d2 = 0 := fun h => h1 (le_antisymm (h ▸ h12) h0)
      norm_num [h1, h2]
  · linarith
  · linarith
  · linarith

/-- Witness for C3 at `d1 = 0`, `d2 = 1`. -/
theorem terrain_params_monotone_witness :
    slope 0 ≤ slope 1 ∧
      step_height 0 ≤ step_height 1 ∧
      discrete_obstacles_height 0 ≤ discrete_obstacles_height 1 ∧
      stone_distance 0 ≤ stone_distance 1 ∧
      gap_size 0 ≤ gap_size 1 ∧
      pit_depth 0 ≤ pit_depth 1 ∧
      stepping_stones_size 1 ≤ stepping_stones_size 0 :=
  terrain_params_monotone 0 1 (by norm_num) (by norm_num) (by norm_num)

/-- C4: with a monotone threshold table (which prefix sums of
non-negative proportions always produce), the `if/elif` chain of
`make_terrain` — which skips index 2 at top level — selects exactly the
branch of the first threshold `choice` falls strictly below in index
order; the slope sign is flipped exactly when
`choice < proportions[0]/2`, the step height is negated exactly when
`choice < proportions[2]`, and the pit branch is reached exactly when
`choice` is `≥` every threshold. -/
theorem make_terrain_dispatch (p : Fin 8 → ℚ) (choice : ℚ)
    (hmono : ∀ i j : Fin 8, i ≤ j → p i ≤ p j) :
    make_terrain_branch p choice = first_below_branch p choice ∧
      (make_terrain_branch p choice = .pit ↔ ∀ i : Fin 8, p i ≤ choice) := by
  have h23 : p 2 ≤ p 3 := hmono 2 3 (by decide)
  constructor
  · by_cases h0 : choice < p 0
    · simp [make_terrain_branch, first_below_branch, h0]
    · by_cases h1 : choice < p 1
      · simp [make_terrain_branch, first_below_branch, h0, h1]
      · by_cases h2 : choice < p 2
        · have h3 : choice < p 3 := lt_of_lt_of_le h2 h23
          simp [make_terrain_branch, first_below_branch, h0, h1, h2, h3]
        · simp [make_terrain_branch, first_below_branch, h0, h1, h2]
  · constructor
    · intro hpit i
      unfold make_terrain_branch at hpit
      split_ifs at hpit with h0 h1 h3 h4 h5 h6 h7
      fin_cases i <;>
        first
          | exact not_lt.mp h0
          | exact not_lt.mp h1
          | exact le_trans h23 (not_lt.mp h3)
          | exact not_lt.mp h3
          | exact not_lt.mp h4
          | exact not_lt.mp h5
          | exact not_lt.mp h6
          | exact not_lt.mp h7
    · intro hall
      simp only [make_terrain_branch, if_neg (not_lt.mpr (hall 0)),
        if_neg (not_lt.mpr (hall 1)), if_neg (not_lt.mpr (hall 3)),
        if_neg (not_lt.mpr (hall 4)), if_neg (not_lt.mpr (hall 5)),
        if_neg (not_lt.mpr (hall 6)), if_neg (not_lt.mpr (hall 7))]

/-- Witness for C4 with the monotone table `p i = i` and `choice = 1/2`. -/
theorem make_terrain_dispatch_witness :
    make_terrain_branch (fun i : Fin 8 => ((i : ℕ) : ℚ)) (1/2) =
        first_below_branch (fun i : Fin 8 => ((i : ℕ) : ℚ)) (1/2) ∧
      (make_terrain_branch (fun i : Fin 8 => ((i : ℕ) : ℚ)) (1/2) = .pit ↔
        ∀ i : Fin 8, ((i : ℕ) : ℚ) ≤ 1/2) :=
  make_terrain_dispatch (fun i : Fin 8 => ((i : ℕ) : ℚ)) (1/2)
    (fun i j hij => by exact_mod_cast Nat.cast_le.mpr hij)

/-- Entry `i` of the proportion table is the sum of the first `i + 1`
configured proportions. -/
theorem proportionsTable_getD (v : List ℚ) (i : ℕ) (hi : i < v.length) :
    (proportionsTable v).getD i 0 = (v.take (i + 1)).sum := by
  rw [proportionsTable, List.getD_eq_getElem?_getD, List.getElem?_map,
    List.getElem?_range hi]
  rfl

/-- C7: the proportion table built by prefix-summation from an
8-element vector of non-negative entries summing to 1 is non-decreasing
and its last entry equals 1 (exactly, in the rational model). -/
theorem proportions_table_monotone_last_one (v : List ℚ) (hlen : v.length = 8)
    (hpos : ∀ x ∈ v, 0 ≤ x) (hsum : v.sum = 1) :
    (∀ i : ℕ, i + 1 < 8 →
        (proportionsTable v).getD i 0 ≤ (proportionsTable v).getD (i + 1) 0) ∧
      (proportionsTable v).getD 7 0 = 1 := by
  constructor
  · intro i hi
    rw [proportionsTable_getD v i (by omega), proportionsTable_getD v (i + 1) (by omega)]
    have hlt : i + 1 < v.length := by omega
    rw [List.sum_take_succ v (i + 1) hlt]
    have : 0 ≤ v[i + 1] := hpos _ (List.getElem_mem hlt)
    linarith
  · rw [proportionsTable_getD v 7 (by omega)]
    rw [List.take_of_length_le (by omega), hsum]

/-- Witness for C7 with the uniform vector of eight entries `1/8`. -/
theorem proportions_table_monotone_last_one_witness :
    (∀ i : ℕ, i + 1 < 8 →
        (proportionsTable [1/8, 1/8, 1/8, 1/8, 1/8, 1/8, 1/8, (1/8 : ℚ)]).getD i 0 ≤
          (proportionsTable [1/8, 1/8, 1/8, 1/8, 1/8, 1/8, 1/8, (1/8 : ℚ)]).getD (i + 1) 0) ∧
      (proportionsTable [1/8, 1/8, 1/8, 1/8, 1/8, 1/8, 1/8, (1/8 : ℚ)]).getD 7 0 = 1 :=
  proportions_table_monotone_last_one _ (by simp)
    (by intro x hx; simp at hx; rw [hx]; norm_num) (by norm_num)

/-- C9: `add_terrain_to_map` is idempotent — the heightfield copy is an
exact overwrite with values taken from the sub-terrain only, and the
origin entry is re-assigned, not accumulated. -/
theorem add_terrain_to_map_idempotent (cfg : TerrainCfg) (s : TerrainState)
    (terrain : SubTerrain) (row col : ℕ) :
    add_terrain_to_map cfg (add_terrain_to_map cfg s terrain row col)
        terrain row col =
      add_terrain_to_map cfg s terrain row col := by
  simp only [add_terrain_to_map]
  congr 1
  · funext x y
    split_ifs <;> rfl
  · funext i j
    split_ifs <;> rfl

/-- `add_terrain_to_map` leaves every heightfield pixel outside the
target slot unchanged. -/
theorem add_terrain_hf_outside (cfg : TerrainCfg) (s : TerrainState)
    (t : SubTerrain) (row col : ℕ) (x y : ℤ)
    (h : ¬((borderPixels cfg + row * length_per_env_pixels cfg : ℕ) ≤ x ∧
        x < (borderPixels cfg + (row + 1) * length_per_env_pixels cfg : ℕ) ∧
        (borderPixels cfg + col * width_per_env_pixels cfg : ℕ) ≤ y ∧
        y < (borderPixels cfg + (col + 1) * width_per_env_pixels cfg : ℕ))) :
    (add_terrain_to_map cfg s t row col).height_field_raw x y =
      s.height_field_raw x y := by
  simp only [add_terrain_to_map]
  exact if_neg h

/-- Unfolding one step of a population pass. -/
theorem placeAll_cons (cfg : TerrainCfg) (s : TerrainState)
    (q : SubTerrain × ℕ × ℕ) (qs : List (SubTerrain × ℕ × ℕ)) :
    placeAll cfg s (q :: qs) =
      placeAll cfg (add_terrain_to_map cfg s q.1 q.2.1 q.2.2) qs := rfl

/-- A border pixel lies outside the slot of every in-range cell. -/
theorem border_pixel_outside_slot (cfg : TerrainCfg) (row col : ℕ) (x y : ℤ)
    (hrow : row < cfg.num_rows) (hcol : col < cfg.num_cols)
    (hb : x < (borderPixels cfg : ℤ) ∨
      (borderPixels cfg + cfg.num_rows * length_per_env_pixels cfg : ℕ) ≤ x ∨
      y < (borderPixels cfg : ℤ) ∨
      (borderPixels cfg + cfg.num_cols * width_per_env_pixels cfg : ℕ) ≤ y) :
    ¬((borderPixels cfg + row * length_per_env_pixels cfg : ℕ) ≤ x ∧
        x < (borderPixels cfg + (row + 1) * length_per_env_pixels cfg : ℕ) ∧
        (borderPixels cfg + col * width_per_env_pixels cfg : ℕ) ≤ y ∧
        y < (borderPixels cfg + (col + 1) * width_per_env_pixels cfg : ℕ)) := by
  rintro ⟨hx1, hx2, hy1, hy2⟩
  push_cast at hx1 hx2 hy1 hy2
  have hL : (0 : ℤ) ≤ (length_per_env_pixels cfg : ℤ) := Int.natCast_nonneg _
  have hWd : (0 : ℤ) ≤ (width_per_env_pixels cfg : ℤ) := Int.natCast_nonneg _
  have hrL : (0 : ℤ) ≤ (row : ℤ) * (length_per_env_pixels cfg : ℤ) :=
    mul_nonneg (Int.natCast_nonneg _) hL
  have hcW : (0 : ℤ) ≤ (col : ℤ) * (width_per_env_pixels cfg : ℤ) :=
    mul_nonneg (Int.natCast_nonneg _) hWd
  have hrow' : ((row : ℤ) + 1) * (length_per_env_pixels cfg : ℤ) ≤
      (cfg.num_rows : ℤ) * (length_per_env_pixels cfg : ℤ) := by
    have : ((row : ℤ) + 1) ≤ (cfg.num_rows : ℤ) := by exact_mod_cast hrow
    exact mul_le_mul_of_nonneg_right this hL
  have hcol' : ((col : ℤ) + 1) * (width_per_env_pixels cfg : ℤ) ≤
      (cfg.num_cols : ℤ) * (width_per_env_pixels cfg : ℤ) := by
    have : ((col : ℤ) + 1) ≤ (cfg.num_cols : ℤ) := by exact_mod_cast hcol
    exact mul_le_mul_of_nonneg_right this hWd
  rcases hb with h | h | h | h
  · linarith
  · push_cast at h; linarith
  · linarith
  · push_cast at h; linarith

/-- During any population pass whose placements stay in the grid, a
border pixel that starts at 0 stays at 0. -/
theorem placeAll_border_zero_aux (cfg : TerrainCfg) (x y : ℤ)
    (hb : x < (borderPixels cfg : ℤ) ∨
      (borderPixels cfg + cfg.num_rows * length_per_env_pixels cfg : ℕ) ≤ x ∨
      y < (borderPixels cfg : ℤ) ∨
      (borderPixels cfg + cfg.num_cols * width_per_env_pixels cfg : ℕ) ≤ y) :
    ∀ (ps : List (SubTerrain × ℕ × ℕ)) (s : TerrainState),
      (∀ q ∈ ps, q.2.1 < cfg.num_rows ∧ q.2.2 < cfg.num_cols) →
      s.height_field_raw x y = 0 →
      (placeAll cfg s ps).height_field_raw x y = 0 := by
  intro ps
  induction ps with
  | nil => intro s _ hs; exact hs
  | cons q qs ih =>
    intro s hq hs
    rw [placeAll_cons]
    refine ih _ (fun r hr => hq r (List.mem_cons_of_mem _ hr)) ?_
    rw [add_terrain_hf_outside]
    · exact hs
    · exact border_pixel_outside_slot cfg q.2.1 q.2.2 x y
        (hq q (List.mem_cons_self _ _)).1 (hq q (List.mem_cons_self _ _)).2 hb

/-- C8: (a) `add_terrain_to_map` never writes a heightfield pixel
outside the slot `[border + row·length_px, border + (row+1)·length_px)
× [border + col·width_px, border + (col+1)·width_px)`; (b) consequently,
in every non-image population pass whose placements satisfy
`row < num_rows` and `col < num_cols` (random, curriculum with default
row/column counts, selected), every pixel of the outer border frame is
still 0 after construction. -/
theorem border_frame_stays_zero (cfg : TerrainCfg) :
    (∀ (s : TerrainState) (t : SubTerrain) (row col : ℕ) (x y : ℤ),
        ¬((borderPixels cfg + row * length_per_env_pixels cfg : ℕ) ≤ x ∧
            x < (borderPixels cfg + (row + 1) * length_per_env_pixels cfg : ℕ) ∧
            (borderPixels cfg + col * width_per_env_pixels cfg : ℕ) ≤ y ∧
            y < (borderPixels cfg + (col + 1) * width_per_env_pixels cfg : ℕ)) →
        (add_terrain_to_map cfg s t row col).height_field_raw x y =
          s.height_field_raw x y) ∧
    (∀ (ps : List (SubTerrain × ℕ × ℕ)) (x y : ℤ),
        (∀ q ∈ ps, q.2.1 < cfg.num_rows ∧ q.2.2 < cfg.num_cols) →
        (x < (borderPixels cfg : ℤ) ∨
          (borderPixels cfg + cfg.num_rows * length_per_env_pixels cfg : ℕ) ≤ x ∨
          y < (borderPixels cfg : ℤ) ∨
          (borderPixels cfg + cfg.num_cols * width_per_env_pixels cfg : ℕ) ≤ y) →
        (placeAll cfg initTerrainState ps).height_field_raw x y = 0) :=
  ⟨fun s t row col x y h => add_terrain_hf_outside cfg s t row col x y h,
    fun ps x y hq hb => placeAll_border_zero_aux cfg x y hb ps initTerrainState hq rfl⟩

/-- Pixel quantities of the example configuration. -/
theorem exampleCfg_pixels :
    borderPixels exampleCfg = 1 ∧ length_per_env_pixels exampleCfg = 2 ∧
      width_per_env_pixels exampleCfg = 2 := by
  refine ⟨?_, ?_, ?_⟩ <;>
    simp [borderPixels, length_per_env_pixels, width_per_env_pixels, exampleCfg,
      pyInt_eq_of_eq_intCast (show ((1 : ℚ)/1) = ((1 : ℤ) : ℚ) by norm_num),
      pyInt_eq_of_eq_intCast (show ((2 : ℚ)/1) = ((2 : ℤ) : ℚ) by norm_num),
      pyInt_eq_of_eq_intCast (show ((1 : ℚ)) = ((1 : ℤ) : ℚ) by norm_num),
      pyInt_eq_of_eq_intCast (show ((2 : ℚ)) = ((2 : ℤ) : ℚ) by norm_num)]

/-- Witness for C8 on the example configuration: the corner border
pixel `(0,0)` is untouched by a placement at cell `(0,0)` and is 0
after a one-placement pass. -/
theorem border_frame_stays_zero_witness :
    (add_terrain_to_map exampleCfg initTerrainState (zeroSubTerrain 2 2 1 1)
          0 0).height_field_raw 0 0 =
        initTerrainState.height_field_raw 0 0 ∧
      (placeAll exampleCfg initTerrainState
          [(zeroSubTerrain 2 2 1 1, 0, 0)]).height_field_raw 0 0 = 0 := by
  obtain ⟨h1, h2⟩ := border_frame_stays_zero exampleCfg
  constructor
  · refine h1 initTerrainState (zeroSubTerrain 2 2 1 1) 0 0 0 0 ?_
    rintro ⟨hx1, -⟩
    rw [exampleCfg_pixels.1, exampleCfg_pixels.2.1] at hx1
    omega
  · refine h2 [(zeroSubTerrain 2 2 1 1, 0, 0)] 0 0 ?_ ?_
    · intro q hq
      simp only [List.mem_singleton] at hq
      subst hq
      exact ⟨Nat.zero_lt_one, Nat.zero_lt_one⟩
    · left
      rw [exampleCfg_pixels.1]
      omega

/-- For a non-negative rational, Python `int()` agrees with the floor. -/
theorem pyInt_eq_floor_of_nonneg {q : ℚ} (h : 0 ≤ q) : pyInt q = ⌊q⌋ := by
  rw [pyInt, Int.tdiv_eq_ediv (Rat.num_nonneg.mpr h) (Int.natCast_nonneg _)]
  exact Rat.floor_def.symm

/-- The seed of a left max-fold never exceeds the result. -/
theorem le_foldl_max (a : ℤ) (r : List ℤ) : a ≤ r.foldl max a := by
  induction r generalizing a with
  | nil => exact le_rfl
  | cons c t ih => exact le_trans (le_max_left a c) (ih (max a c))

/-- Every listed value is bounded by the left max-fold. -/
theorem mem_le_foldl_max (r : List ℤ) (a : ℤ) : ∀ v ∈ r, v ≤ r.foldl max a := by
  induction r generalizing a with
  | nil => intro v hv; cases hv
  | cons c t ih =>
    intro v hv
    rcases List.mem_cons.mp hv with rfl | hv'
    · exact le_trans (le_max_right a v) (le_foldl_max _ t)
    · exact ih (max a c) v hv'

/-- The left max-fold is bounded by any common upper bound. -/
theorem foldl_max_le (r : List ℤ) (b : ℤ) (hr : ∀ v ∈ r, v ≤ b) :
    ∀ a, a ≤ b → r.foldl max a ≤ b := by
  induction r with
  | nil => intro a ha; exact ha
  | cons c t ih =>
    intro a ha
    exact ih (fun v hv => hr v (List.mem_cons_of_mem _ hv)) (max a c)
      (max_le ha (hr c (List.mem_cons_self c t)))

/-- `np.max` of a list containing a value that dominates all entries is
that value. -/
theorem npMax_eq_peak (l : List ℤ) (peak : ℤ) (hmem : peak ∈ l)
    (hle : ∀ v ∈ l, v ≤ peak) : npMax l = peak := by
  cases l with
  | nil => cases hmem
  | cons a r =>
    simp only [npMax]
    refine le_antisymm
      (foldl_max_le r peak (fun v hv => hle v (List.mem_cons_of_mem _ hv)) a
        (hle a (List.mem_cons_self a r))) ?_
    rcases List.mem_cons.mp hmem with rfl | h
    · exact le_foldl_max peak r
    · exact mem_le_foldl_max r a peak h

/-- C6: after `add_terrain_to_map(terrain, row, col)`, the origin entry
of cell `(row, col)` is `((row+0.5)·env_length, (col+0.5)·env_width, z)`
where `z` is the maximum raw height of the sub-terrain over the pixel
window `[int((len/2-1)/hs), int((len/2+1)/hs)) ×
[int((wid/2-1)/hs), int((wid/2+1)/hs))`, scaled by the sub-terrain's
vertical scale; in particular, when the window contains a value that
dominates every window value, `z` is that peak times the vertical
scale. -/
theorem env_origin_components (cfg : TerrainCfg) (s : TerrainState)
    (terrain : SubTerrain) (row col : ℕ) (x1 x2 y1 y2 : ℤ)
    (hx1 : x1 = pyInt ((cfg.terrain_length / 2 - 1) / terrain.horizontal_scale))
    (hx2 : x2 = pyInt ((cfg.terrain_length / 2 + 1) / terrain.horizontal_scale))
    (hy1 : y1 = pyInt ((cfg.terrain_width / 2 - 1) / terrain.horizontal_scale))
    (hy2 : y2 = pyInt ((cfg.terrain_width / 2 + 1) / terrain.horizontal_scale)) :
    (add_terrain_to_map cfg s terrain row col).env_origins row col =
        (((row : ℚ) + 1/2) * cfg.terrain_length,
          ((col : ℚ) + 1/2) * cfg.terrain_width,
          (npMax (regionVals terrain.height_field_raw x1 x2 y1 y2) : ℚ) *
            terrain.vertical_scale) ∧
      (∀ peak : ℤ,
        peak ∈ regionVals terrain.height_field_raw x1 x2 y1 y2 →
        (∀ v ∈ regionVals terrain.height_field_raw x1 x2 y1 y2, v ≤ peak) →
        ((add_terrain_to_map cfg s terrain row col).env_origins row col).2.2 =
          (peak : ℚ) * terrain.vertical_scale) := by
  subst hx1 hx2 hy1 hy2
  constructor
  · simp only [add_terrain_to_map]
    rw [if_pos (by simp)]
  · intro peak hmem hle
    simp only [add_terrain_to_map]
    rw [if_pos (by simp), npMax_eq_peak _ peak hmem hle]

/-- Witness for C6: with the 4×4 peak terrain the spawn height is the
peak value 7 times the vertical scale 1/2. -/
theorem env_origin_components_witness :
    ((add_terrain_to_map peakCfg initTerrainState peakTerrain 0 0).env_origins
        0 0).2.2 = ((7 : ℤ) : ℚ) * peakTerrain.vertical_scale :=
  (env_origin_components peakCfg initTerrainState peakTerrain 0 0 1 3 1 3
      ((pyInt_eq_of_eq_intCast (by norm_num [peakCfg, peakTerrain])).symm)
      ((pyInt_eq_of_eq_intCast (by norm_num [peakCfg, peakTerrain])).symm)
      ((pyInt_eq_of_eq_intCast (by norm_num [peakCfg, peakTerrain])).symm)
      ((pyInt_eq_of_eq_intCast (by norm_num [peakCfg, peakTerrain])).symm)).2
    7 (by decide) (by decide)

/-- The sub-terrain constructed by `make_terrain` always has both
dimensions equal to `width_per_env_pixels`, whatever the generators do
to the heightfield. -/
theorem make_terrain_dims (g : ExternalGens) (cfg : TerrainCfg)
    (p : Fin 8 → ℚ) (choice difficulty : ℚ) :
    (make_terrain g cfg p choice difficulty).width = width_per_env_pixels cfg ∧
      (make_terrain g cfg p choice difficulty).length =
        width_per_env_pixels cfg := by
  constructor <;>
    · simp only [make_terrain, zeroSubTerrain, gap_terrain, pit_terrain]
      split_ifs <;> rfl

/-- C10 (amended): the sub-terrain `make_terrain` builds is always
square — both `width` and `length` are `width_per_env_pixels` — so the
numpy copy in `add_terrain_to_map` into a slot of shape
`(length_per_env_pixels, width_per_env_pixels)` is shape-correct exactly
when `length_per_env_pixels = width_per_env_pixels` (which holds
whenever `env_length = env_width`, but also for some unequal
dimensions). -/
theorem make_terrain_square (g : ExternalGens) (cfg : TerrainCfg)
    (p : Fin 8 → ℚ) (choice difficulty : ℚ) :
    (make_terrain g cfg p choice difficulty).width = width_per_env_pixels cfg ∧
      (make_terrain g cfg p choice difficulty).length =
        width_per_env_pixels cfg ∧
      (copyShapeCorrect cfg (make_terrain g cfg p choice difficulty) ↔
        length_per_env_pixels cfg = width_per_env_pixels cfg) := by
  obtain ⟨hw, hl⟩ := make_terrain_dims g cfg p choice difficulty
  refine ⟨hw, hl, ?_⟩
  unfold copyShapeCorrect
  rw [hw, hl]
  constructor
  · rintro ⟨h1, -⟩
    exact h1.symm
  · intro h
    exact ⟨h.symm, rfl⟩

/-- C10, counterexample: with `terrain_length = 1.05`,
`terrain_width = 1.0`, `horizontal_scale = 0.1`, both pixel counts are
10, so the copy is shape-correct although `env_length ≠ env_width` —
shape-correctness does not require `env_length = env_width`. -/
theorem shape_correct_without_equal_dims :
    copyShapeCorrect skewedCfg
        (make_terrain trivialGens skewedCfg (fun _ => 1) (1/2) (1/2)) ∧
      skewedCfg.terrain_length ≠ skewedCfg.terrain_width := by
  have hl : length_per_env_pixels skewedCfg = 10 := by
    have hpl : pyInt (skewedCfg.terrain_length / skewedCfg.horizontal_scale) = 10 := by
      rw [pyInt_eq_floor_of_nonneg (by norm_num [skewedCfg])]
      exact Int.floor_eq_iff.mpr ⟨by norm_num [skewedCfg], by norm_num [skewedCfg]⟩
    simp [length_per_env_pixels, hpl]
  have hw : width_per_env_pixels skewedCfg = 10 := by
    have hpw : pyInt (skewedCfg.terrain_width / skewedCfg.horizontal_scale) = 10 :=
      pyInt_eq_of_eq_intCast (by norm_num [skewedCfg])
    simp [width_per_env_pixels, hpw]
  obtain ⟨hw', hl'⟩ :=
    make_terrain_dims trivialGens skewedCfg (fun _ => 1) (1/2) (1/2)
  refine ⟨⟨?_, ?_⟩, ?_⟩
  · rw [hl', hw, hl]
  · rw [hw', hw]
  · simp [skewedCfg]
    norm_num

end ViNL
